import Mathlib

/-!
Shallow embedding of the pinocchio-amm program (a two-asset AMM written
against the pinocchio Solana framework) and proofs about the claims of
its natural-language specification.

Machine integers are modelled as `Nat` with explicit `% 2 ^ 64`
(`% 2 ^ 128`) reductions at the points where the Rust source narrows or
could wrap; the Rust `checked_*` operations on `u128` are modelled by
`Option`-valued functions that fail exactly when the Rust ones return
`None`.  Fallible Rust functions returning `Result<_, E>` are modelled
as `Except E _`.  External environment services (address derivation,
the clock) are passed in as explicit parameters, matching the spec's
"external interfaces" section.
-/

namespace PinocchioAmm

deriving instance DecidableEq for Except

/-- `2 ^ 64`, the modulus of Rust `u64`. -/
def U64_MOD : Nat := 2 ^ 64

/-- `2 ^ 128`, the modulus of Rust `u128`. -/
def U128_MOD : Nat := 2 ^ 128

/-- Rust `u128::checked_add`: `None` on overflow past `u128::MAX`. -/
def checkedAdd128 (a b : Nat) : Option Nat :=
  if a + b < U128_MOD then some (a + b) else none

/-- Rust `u128::checked_mul`: `None` on overflow past `u128::MAX`. -/
def checkedMul128 (a b : Nat) : Option Nat :=
  if a * b < U128_MOD then some (a * b) else none

/-- Rust `u128::checked_div`: `None` exactly on division by zero. -/
def checkedDiv128 (a b : Nat) : Option Nat :=
  if b = 0 then none else some (a / b)

/-- Rust `u128::checked_sub`: `None` exactly on underflow. -/
def checkedSub128 (a b : Nat) : Option Nat :=
  if b ≤ a then some (a - b) else none

/-- The program's custom error codes (`src/error.rs`, `PinocchioError`). -/
inductive PinocchioError
  | IdenticalTokenMints
  | InvalidMintAmount
  | InvalidOwner
  | MathOverflow
  | InvalidMintSupply
  | InvalidAmount
  | SlipageExceeded
  | LessThanMinimum
  | Expired
  | InvalidConfig
  | InvalidLpMint
  | InvalidMint
  deriving DecidableEq

/-- The subset of Solana `ProgramError` variants the program produces,
plus `Custom` wrapping the program's own codes (`src/error.rs`). -/
inductive ProgramError
  | InvalidAccountData
  | InvalidAccountOwner
  | InvalidInstructionData
  | MissingRequiredSignature
  | IllegalOwner
  | Custom (e : PinocchioError)
  deriving DecidableEq

/-- Curve-engine errors (`src/error.rs`, `CurveError`). -/
inductive CurveError
  | Overflow
  | SlippageExceeded
  | MathOverflow
  deriving DecidableEq

/-- `XYAmounts` (`src/state/curve.rs`): an (x, y) pair of deposit amounts. -/
structure XYAmounts where
  x : Nat
  y : Nat
  deriving DecidableEq

/-- `XYAmounts::xy_deposit_amounts_from_l` (`src/state/curve.rs` lines 12-47).
Every `u128` step is a `checked_*` operation; the final values are cast
`as u64`, modelled by `% U64_MOD`. -/
def xyDepositAmountsFromL (x y l a p : Nat) : Except CurveError XYAmounts :=
  match checkedAdd128 l a with
  | none => .error .Overflow
  | some s1 =>
    match checkedMul128 s1 p with
    | none => .error .Overflow
    | some s2 =>
      match checkedDiv128 s2 l with
      | none => .error .Overflow
      | some r =>
        match checkedMul128 x r with
        | none => .error .Overflow
        | some dx1 =>
          match checkedDiv128 dx1 p with
          | none => .error .Overflow
          | some dx2 =>
            match checkedSub128 dx2 x with
            | none => .error .Overflow
            | some dx3 =>
              match checkedMul128 y r with
              | none => .error .Overflow
              | some dy1 =>
                match checkedDiv128 dy1 p with
                | none => .error .Overflow
                | some dy2 =>
                  match checkedSub128 dy2 y with
                  | none => .error .Overflow
                  | some dy3 => .ok ⟨dx3 % U64_MOD, dy3 % U64_MOD⟩

/-- Modelled from the spec: `shareAmountsFromLiquidity` as §4.1 words it —
`ratio = (share_supply + added_shares) * 10^precision / share_supply` in a
128-bit intermediate, `deposit_x = reserve_x * ratio / 10^precision -
reserve_x` (symmetric in y), failing with `Overflow` on any 128-bit
overflow or underflow or when `share_supply == 0`.  Used only to compare
the spec's formula against the source's `xy_deposit_amounts_from_l`. -/
def xyDepositAmountsFromLSpec (x y l a p : Nat) : Except CurveError XYAmounts :=
  if l = 0 then .error .Overflow
  else
    let r := (l + a) * 10 ^ p / l
    if (l + a) * 10 ^ p < U128_MOD ∧ x * r < U128_MOD ∧ y * r < U128_MOD ∧
        x ≤ x * r / 10 ^ p ∧ y ≤ y * r / 10 ^ p then
      .ok ⟨x * r / 10 ^ p - x, y * r / 10 ^ p - y⟩
    else .error .Overflow

/-! ## Deposit handler (`src/instructions/deposit.rs`) -/

/-- The program's own id (`crate::ID`), an opaque 32-byte constant;
keys are modelled as `Nat`. -/
def crateID : Nat := 100

/-- The SPL token program id (`pinocchio_token::ID`), opaque constant. -/
def tokenProgramID : Nat := 101

/-- `size_of::<Config>()` for the `repr(C)` struct in `src/state.rs`:
six 32-byte pubkeys, a `u16` fee and a `u8` bump, padded to align 2. -/
def Config.LEN : Nat := 196

/-- `pinocchio_token::state::Mint::LEN`. -/
def MINT_LEN : Nat := 82

/-- `pinocchio_token::state::TokenAccount::LEN`. -/
def TOKEN_ACCOUNT_LEN : Nat := 165

/-- The seed tuples this program feeds to `find_program_address`:
`[b"config", config_bump.to_le_bytes()]` and
`[b"lp_mint", config.key()]`. -/
inductive Seeds
  | configSeeds (bump : Nat)
  | lpMintSeeds (configKey : Nat)

/-- The decoded fields of an SPL token account that the handler reads
(`TokenAccount::from_bytes_unchecked` then `.owner()`, `.mint()`,
`.amount()`). -/
structure TokenAccountData where
  owner : Nat
  mint : Nat
  amount : Nat
  deriving DecidableEq

/-- `DepositInstructions` (`src/instructions/deposit.rs` lines 94-98). -/
structure DepositInstructions where
  mintX : Nat
  mintY : Nat
  minLpAmount : Nat
  deriving DecidableEq

/-- The balance-mutating effects a handler requests from the ledger
(`Transfer` / `MintTo` cross-program invocations). -/
inductive Effect
  | transfer (source dest amount authority : Nat)
  | mintTo (account mint amount mintAuthority : Nat)
  deriving DecidableEq

/-- Everything `Deposit::process` reads from its account list: the
account keys bound in `DepositAccounts`, the data of the config account
(`Config::load` checks its length and owner and reads `config_bump`),
and the decoded token-account data of the three vaults. -/
structure DepositCtx where
  user : Nat
  mintX : Nat
  mintY : Nat
  lpMint : Nat
  config : Nat
  vaultX : Nat
  vaultY : Nat
  vaultLp : Nat
  userXAta : Nat
  userYAta : Nat
  userLpAta : Nat
  configDataLen : Nat
  configOwner : Nat
  configBump : Nat
  vaultXData : TokenAccountData
  vaultYData : TokenAccountData
  vaultLpData : TokenAccountData

/-- The first-deposit share computation inlined in `Deposit::process`
(`src/instructions/deposit.rs` lines 211-225): geometric mean of the two
deposited amounts over a `u128` product (`isqrt` is floor square root,
its result cast `as u64`), rejected below a floor of 1000. -/
def initialShareSupply (amountX amountY : Nat) : Except ProgramError Nat :=
  match checkedMul128 amountX amountY with
  | none => .error (.Custom .MathOverflow)
  | some product =>
    if product = 0 then .error (.Custom .InvalidMintSupply)
    else
      let sqrtResult := Nat.sqrt product % U64_MOD
      if sqrtResult < 1000 then .error (.Custom .InvalidMintSupply)
      else .ok sqrtResult

/-- The proportional share computation inlined in `Deposit::process`
(`src/instructions/deposit.rs` lines 227-243): each per-asset quotient
is computed in `u128` with checked operations and then cast `as u64`
(modelled by `% U64_MOD`); the result is the minimum of the two. -/
def proportionalMintAmount (reserveX reserveY lpSupply mintX mintY : Nat) :
    Except ProgramError Nat :=
  if reserveX = 0 ∨ reserveY = 0 ∨ lpSupply = 0 then
    .error (.Custom .InvalidMintSupply)
  else
    match checkedMul128 mintX lpSupply with
    | none => .error (.Custom .MathOverflow)
    | some m1 =>
      match checkedDiv128 m1 reserveX with
      | none => .error (.Custom .MathOverflow)
      | some d1 =>
        match checkedMul128 mintY lpSupply with
        | none => .error (.Custom .MathOverflow)
        | some m2 =>
          match checkedDiv128 m2 reserveY with
          | none => .error (.Custom .MathOverflow)
          | some d2 => .ok (min (d1 % U64_MOD) (d2 % U64_MOD))

/-- The branch selecting the share computation in `Deposit::process`
(`src/instructions/deposit.rs` lines 210-244): the first-deposit path is
chosen exactly when both live reserves are zero. -/
def lpMintTokensSupply (reserveX reserveY lpSupply mintX mintY : Nat) :
    Except ProgramError Nat :=
  if reserveX = 0 ∧ reserveY = 0 then initialShareSupply mintX mintY
  else proportionalMintAmount reserveX reserveY lpSupply mintX mintY

/-- `Deposit::process` (`src/instructions/deposit.rs` lines 161-278).
`fpa` is the external `find_program_address` derivation.  The returned
list is the sequence of effects the handler requests, in order; an
error means the invocation aborts with no effects requested. -/
def depositProcess (fpa : Seeds → Nat) (ctx : DepositCtx)
    (ins : DepositInstructions) : Except ProgramError (List Effect) :=
  if ctx.configDataLen ≠ Config.LEN then .error .InvalidAccountData
  else if ctx.configOwner ≠ crateID then .error .InvalidAccountOwner
  else if fpa (.configSeeds ctx.configBump) ≠ ctx.config then
    .error (.Custom .InvalidConfig)
  else if fpa (.lpMintSeeds ctx.config) ≠ ctx.lpMint then
    .error (.Custom .InvalidLpMint)
  else
    if ctx.vaultXData.owner ≠ ctx.config ∨ ctx.vaultYData.owner ≠ ctx.config then
      .error (.Custom .InvalidOwner)
    else if ctx.vaultXData.mint ≠ ctx.mintX ∨ ctx.vaultYData.mint ≠ ctx.mintY then
      .error .InvalidAccountData
    else
      match lpMintTokensSupply ctx.vaultXData.amount ctx.vaultYData.amount
          ctx.vaultLpData.amount ins.mintX ins.mintY with
      | .error e => .error e
      | .ok lp =>
        if lp = 0 then .error (.Custom .InvalidAmount)
        else if lp < ins.minLpAmount then .error (.Custom .SlipageExceeded)
        else .ok
          [ .transfer ctx.userXAta ctx.vaultX ins.mintX ctx.user,
            .transfer ctx.userYAta ctx.vaultY ins.mintY ctx.user,
            .mintTo ctx.lpMint ctx.lpMint lp ctx.config ]

/-- A concrete derivation function used for concrete evaluations:
maps the seeds this program uses to distinct small keys. -/
def fpaC : Seeds → Nat
  | .configSeeds 9 => 5
  | .lpMintSeeds 5 => 6
  | _ => 0

/-- A concrete deposit context with a non-empty pool: reserves
`(1000, 2000)`, live share supply `500`, all validation data consistent
with `fpaC`. -/
def ctxA : DepositCtx where
  user := 1
  mintX := 2
  mintY := 3
  lpMint := 6
  config := 5
  vaultX := 7
  vaultY := 8
  vaultLp := 9
  userXAta := 10
  userYAta := 11
  userLpAta := 12
  configDataLen := Config.LEN
  configOwner := crateID
  configBump := 9
  vaultXData := ⟨5, 2, 1000⟩
  vaultYData := ⟨5, 3, 2000⟩
  vaultLpData := ⟨5, 6, 500⟩

/-! ## Withdraw parameter parsing (`src/instructions/withdraw.rs`) -/

/-- Little-endian byte decoding (`u64::from_le_bytes`); bytes are `Nat`
values below 256. -/
def fromLeBytes (bs : List Nat) : Nat :=
  bs.foldr (fun b acc => b + 256 * acc) 0

/-- Little-endian encoding of a `u64` into its eight bytes
(`u64::to_le_bytes`), used to build concrete instruction data. -/
def leBytes8 (n : Nat) : List Nat :=
  [n % 256, n / 256 % 256, n / 256 ^ 2 % 256, n / 256 ^ 3 % 256,
   n / 256 ^ 4 % 256, n / 256 ^ 5 % 256, n / 256 ^ 6 % 256,
   n / 256 ^ 7 % 256]

/-- `WithdrawInstructions` (`src/instructions/withdraw.rs` lines 72-77). -/
structure WithdrawInstructions where
  amount : Nat
  minX : Nat
  minY : Nat
  expiration : Nat
  deriving DecidableEq

/-- `WithdrawInstructions::try_from` (`src/instructions/withdraw.rs`
lines 79-107).  `now` is the ledger clock's `unix_timestamp` read via
`Clock::get()` (an external interface, passed as a parameter).  The
source compares `expiration > now` and rejects with `Expired` when that
holds. -/
def withdrawInstructionsTryFrom (data : List Nat) (now : Nat) :
    Except ProgramError WithdrawInstructions :=
  if data.length ≠ 32 then .error .InvalidInstructionData
  else
    let amount := fromLeBytes ((data.drop 0).take 8)
    let minX := fromLeBytes ((data.drop 8).take 8)
    let minY := fromLeBytes ((data.drop 16).take 8)
    let expiration := fromLeBytes ((data.drop 24).take 8)
    if amount = 0 ∨ minX = 0 ∨ minY = 0 then .error (.Custom .LessThanMinimum)
    else if expiration > now then .error (.Custom .Expired)
    else .ok ⟨amount, minX, minY, expiration⟩

/-! ## Initialize parameter parsing (`src/instructions/initialize.rs`) -/

/-- The possible outcomes of running `InitializeConfigInstruction::try_from`:
a parsed `(fee, config_bump)` pair, an error return, or an
out-of-bounds slice index, which in Rust aborts the program
(a panic), distinct from returning an error. -/
inductive InitParseOutcome
  | ok (fee : Nat) (configBump : Nat)
  | err (e : ProgramError)
  | outOfBounds
  deriving DecidableEq

/-- `InitializeConfigInstruction::try_from` (`src/instructions/initialize.rs`
lines 68-84).  The source guards `data.len() < 2`, reads the fee from
`data[0..2]`, then indexes `data[2]` — which is out of bounds whenever
the slice has exactly two bytes — and finally checks `fee > 1000`. -/
def initializeConfigInstructionTryFrom (data : List Nat) : InitParseOutcome :=
  match data with
  | b0 :: b1 :: rest =>
    let fee := b0 + 256 * b1
    match rest with
    | [] => .outOfBounds
    | b2 :: _ =>
      if fee > 1000 then .err .InvalidAccountData
      else .ok fee b2
  | _ => .err .InvalidAccountData

/-! ## Deposit account validation (`src/instructions/deposit.rs` lines 43-92) -/

/-- The account metadata the validation layer (`src/instructions/helper.rs`)
inspects: key, signer flag, owning program, and data length. -/
structure AccountInfo where
  key : Nat
  isSigner : Bool
  owner : Nat
  dataLen : Nat
  deriving DecidableEq

/-- `SignerAccount::check` (`src/instructions/helper.rs` lines 17-24). -/
def signerCheck (a : AccountInfo) : Except ProgramError Unit :=
  if ¬a.isSigner then .error .MissingRequiredSignature else .ok ()

/-- `MintInterface::check` (`src/instructions/helper.rs` lines 28-35). -/
def mintInterfaceCheck (a : AccountInfo) : Except ProgramError Unit :=
  if a.dataLen ≠ MINT_LEN then .error .InvalidAccountData else .ok ()

/-- `TokenAccount::check` (`src/instructions/helper.rs` lines 39-50). -/
def tokenAccountCheck (a : AccountInfo) : Except ProgramError Unit :=
  if a.owner ≠ tokenProgramID then .error .IllegalOwner
  else if a.dataLen ≠ TOKEN_ACCOUNT_LEN then .error .InvalidAccountData
  else .ok ()

/-- `AssociatedTokenAccount::check` (`src/instructions/helper.rs` lines
121-139).  `ataDerive authority mint` is the external
`find_program_address([authority, token_program, mint], ata_program)`
derivation. -/
def associatedTokenAccountCheck (ataDerive : Nat → Nat → Nat)
    (account authority mint : AccountInfo) : Except ProgramError Unit := do
  tokenAccountCheck account
  if ataDerive authority.key mint.key ≠ account.key then
    Except.error .InvalidAccountData
  else Except.ok ()

/-- `DepositAccounts` (`src/instructions/deposit.rs` lines 21-41). -/
structure DepositAccounts where
  user : AccountInfo
  mintX : AccountInfo
  mintY : AccountInfo
  lpMint : AccountInfo
  config : AccountInfo
  vaultX : AccountInfo
  vaultY : AccountInfo
  vaultLp : AccountInfo
  userXAta : AccountInfo
  userYAta : AccountInfo
  userLpAta : AccountInfo
  tokenProgram : AccountInfo
  systemProgram : AccountInfo
  associatedTokenProgram : AccountInfo

/-- `DepositAccounts::try_from` (`src/instructions/deposit.rs` lines
43-92), with the source's destructuring order of the 14 accounts.
`fpa` is `find_program_address` for this program's own seeds. -/
def depositAccountsTryFrom (ataDerive : Nat → Nat → Nat) (fpa : Seeds → Nat)
    (accounts : List AccountInfo) : Except ProgramError DepositAccounts :=
  match accounts with
  | [user, mintX, mintY, lpMint, config, vaultX, vaultY, userLpAta,
      userXAta, userYAta, vaultLp, tokenProgram, systemProgram,
      associatedTokenProgram] => do
    signerCheck user
    mintInterfaceCheck mintX
    mintInterfaceCheck mintY
    associatedTokenAccountCheck ataDerive userXAta user mintX
    associatedTokenAccountCheck ataDerive userYAta user mintY
    associatedTokenAccountCheck ataDerive userLpAta user lpMint
    associatedTokenAccountCheck ataDerive vaultLp vaultX lpMint
    associatedTokenAccountCheck ataDerive vaultLp vaultY lpMint
    if fpa (.lpMintSeeds config.key) ≠ lpMint.key then
      Except.error .InvalidAccountData
    else if mintX.key = mintY.key then
      Except.error (.Custom .IdenticalTokenMints)
    else
      Except.ok ⟨user, mintX, mintY, lpMint, config, vaultX, vaultY, vaultLp,
        userXAta, userYAta, userLpAta, tokenProgram, systemProgram,
        associatedTokenProgram⟩
  | _ => .error .InvalidAccountData

/-- A concrete deposit context with an empty pool (both reserves zero)
but a non-zero live share supply of 7 in the LP vault. -/
def ctxB : DepositCtx where
  user := 1
  mintX := 2
  mintY := 3
  lpMint := 6
  config := 5
  vaultX := 7
  vaultY := 8
  vaultLp := 9
  userXAta := 10
  userYAta := 11
  userLpAta := 12
  configDataLen := Config.LEN
  configOwner := crateID
  configBump := 9
  vaultXData := ⟨5, 2, 0⟩
  vaultYData := ⟨5, 3, 0⟩
  vaultLpData := ⟨5, 6, 7⟩

/-- A concrete associated-token derivation, injective in the owner for
small keys: `owner * 1000 + mint`. -/
def ataDeriveC : Nat → Nat → Nat := fun o m => 1000 * o + m

/-- A concrete 14-account list for `DepositAccounts::try_from`, with
distinct vault keys 7 and 8. -/
def accountsC : List AccountInfo :=
  [ ⟨1, true, 0, 0⟩, ⟨2, false, 0, MINT_LEN⟩, ⟨3, false, 0, MINT_LEN⟩,
    ⟨6, false, 0, MINT_LEN⟩, ⟨5, false, 0, 0⟩,
    ⟨7, false, tokenProgramID, TOKEN_ACCOUNT_LEN⟩,
    ⟨8, false, tokenProgramID, TOKEN_ACCOUNT_LEN⟩,
    ⟨1006, false, tokenProgramID, TOKEN_ACCOUNT_LEN⟩,
    ⟨1002, false, tokenProgramID, TOKEN_ACCOUNT_LEN⟩,
    ⟨1003, false, tokenProgramID, TOKEN_ACCOUNT_LEN⟩,
    ⟨7006, false, tokenProgramID, TOKEN_ACCOUNT_LEN⟩,
    ⟨101, false, 0, 0⟩, ⟨102, false, 0, 0⟩, ⟨103, false, 0, 0⟩ ]

/-! ## Theorems -/

/-- Claim C1: the Deposit handler is claimed to request, on success,
two transfers to the vaults and a mint of the computed share amount to
the caller's share account `user_lp_ata`.  The code diverges: on a
successful deposit the three effects are requested in the claimed order
with the claimed amounts and authorities, but the `MintTo` destination
account is the `lp_mint` account itself (`src/instructions/deposit.rs`
line 271), not `user_lp_ata`.  Here, with `lp_mint` key 6 and
`user_lp_ata` key 12, a successful deposit of `(100, 200)` into
reserves `(1000, 2000)` with supply `500` requests
`mintTo` with destination 6 ≠ 12. -/
theorem depositProcess_mints_to_lp_mint_not_user_ata :
    depositProcess fpaC ctxA ⟨100, 200, 0⟩ =
      .ok [ .transfer 10 7 100 1, .transfer 11 8 200 1, .mintTo 6 6 50 5 ] ∧
    ctxA.lpMint = 6 ∧ ctxA.userLpAta = 12 ∧ (6 : Nat) ≠ 12 := by
  refine ⟨by decide, rfl, rfl, by decide⟩

/-- Claim C2: Withdraw parsing is claimed to fail with `Expired` exactly
when `expiration < now`.  The code's comparison is inverted
(`src/instructions/withdraw.rs` line 96: `expiration > now → Expired`):
with `now = 1000` and parameters `(amount, min_x, min_y) = (1, 1, 1)`,
a deadline of 1100 (still in the future) is rejected as `Expired`,
while a deadline of 900 (already passed) is accepted. -/
theorem withdraw_expiration_check_inverted :
    withdrawInstructionsTryFrom
      (leBytes8 1 ++ leBytes8 1 ++ leBytes8 1 ++ leBytes8 1100) 1000 =
      .error (.Custom .Expired) ∧
    withdrawInstructionsTryFrom
      (leBytes8 1 ++ leBytes8 1 ++ leBytes8 1 ++ leBytes8 900) 1000 =
      .ok ⟨1, 1, 1, 900⟩ := by
  exact ⟨by decide, by decide⟩

/-- Claim C9: Initialize parameter parsing is claimed to be total,
rejecting any wrong-length slice with an error.  The code guards only
`data.len() < 2` and then indexes `data[2]`
(`src/instructions/initialize.rs` lines 72-77), so a slice of exactly
two bytes causes an out-of-bounds index (a Rust panic), not an error
return; slices shorter than two bytes are rejected with an error, and
three-byte slices parse. -/
theorem initialize_parse_two_bytes_out_of_bounds :
    initializeConfigInstructionTryFrom [0, 0] = .outOfBounds ∧
    initializeConfigInstructionTryFrom [0] = .err .InvalidAccountData ∧
    initializeConfigInstructionTryFrom [0, 0, 7] = .ok 0 7 := by
  exact ⟨by decide, by decide, by decide⟩

/-- Counterexample to claim C3: `xy_deposit_amounts_from_l` does
silently truncate.  At `(x, y, l, a, p) = (2^63, 0, 1, 3, 1)` the
mathematically correct wide-intermediate value of `deposit_x` is
`x * ((l+a)*p/l) / p - x = 3 * 2^63`, but the function returns that
value reduced `mod 2^64`, namely `2^63`, with no error. -/
theorem xyDeposit_truncates_counterexample :
    xyDepositAmountsFromL 9223372036854775808 0 1 3 1 =
      .ok ⟨9223372036854775808, 0⟩ ∧
    9223372036854775808 * ((1 + 3) * 1 / 1) / 1 - 9223372036854775808 =
      27670116110564327424 ∧
    (9223372036854775808 : Nat) ≠ 27670116110564327424 := by
  exact ⟨by decide, by decide, by decide⟩

/-- Counterexample to claim C5: the source multiplies the ratio by the
raw `precision` argument, not by `10^precision`.  At
`(x, y, l, a, p) = (10, 10, 3, 1, 1)` the code returns `(0, 0)`
(ratio `= 4 * 1 / 3 = 1`), while the spec's formula with `10^p = 10`
(modelled by `xyDepositAmountsFromLSpec`) yields `(3, 3)`
(ratio `= 4 * 10 / 3 = 13`). -/
theorem xyDeposit_ratio_not_pow10_counterexample :
    xyDepositAmountsFromL 10 10 3 1 1 = .ok ⟨0, 0⟩ ∧
    xyDepositAmountsFromLSpec 10 10 3 1 1 = .ok ⟨3, 3⟩ ∧
    (XYAmounts.mk 0 0) ≠ (XYAmounts.mk 3 3) := by
  exact ⟨by decide, by decide, by decide⟩

/-- Counterexample to claim C7: each per-asset quotient is cast
`as u64` before taking the minimum, so the minted shares are not always
`min(dx*L/rx, dy*L/ry)`.  With reserves `(1, 1)`, supply
`L = 2^64 - 1`, and deposits `(2^64 - 1, 1)`, the first quotient is
`(2^64-1)^2`, which truncates to 1, so the code mints 1 share, while
the claimed formula gives `2^64 - 1`. -/
theorem proportionalMint_truncates_counterexample :
    proportionalMintAmount 1 1 18446744073709551615 18446744073709551615 1 =
      .ok 1 ∧
    min (18446744073709551615 * 18446744073709551615 / 1)
      (1 * 18446744073709551615 / 1) = 18446744073709551615 ∧
    (1 : Nat) ≠ 18446744073709551615 := by
  exact ⟨by decide, by decide, by decide⟩

/-- Helper: `U64_MOD * U64_MOD = U128_MOD`. -/
theorem u64_mul_u64 : U64_MOD * U64_MOD = U128_MOD := by
  norm_num [U64_MOD, U128_MOD]

/-- Helper: when every account-validation step of `Deposit::process`
passes, the share computation yields `lp ≠ 0`, and `lp` meets the
caller's minimum, the handler requests exactly the three effects. -/
theorem depositProcess_ok_eq (fpa : Seeds → Nat) (ctx : DepositCtx)
    (ins : DepositInstructions) (lp : Nat)
    (h1 : ctx.configDataLen = Config.LEN)
    (h2 : ctx.configOwner = crateID)
    (h3 : fpa (.configSeeds ctx.configBump) = ctx.config)
    (h4 : fpa (.lpMintSeeds ctx.config) = ctx.lpMint)
    (h5 : ctx.vaultXData.owner = ctx.config)
    (h6 : ctx.vaultYData.owner = ctx.config)
    (h7 : ctx.vaultXData.mint = ctx.mintX)
    (h8 : ctx.vaultYData.mint = ctx.mintY)
    (hlp : lpMintTokensSupply ctx.vaultXData.amount ctx.vaultYData.amount
      ctx.vaultLpData.amount ins.mintX ins.mintY = .ok lp)
    (hnz : lp ≠ 0)
    (hge : ¬ lp < ins.minLpAmount) :
    depositProcess fpa ctx ins = .ok
      [ .transfer ctx.userXAta ctx.vaultX ins.mintX ctx.user,
        .transfer ctx.userYAta ctx.vaultY ins.mintY ctx.user,
        .mintTo ctx.lpMint ctx.lpMint lp ctx.config ] := by
  unfold depositProcess
  simp [h1, h2, h3, h4, h5, h6, h7, h8, hlp, hnz, hge]

/-- Claim C6: on the first-deposit path the minted share supply is the
floor square root of the 128-bit product of the two amounts, rejected
with `InvalidMintSupply` when the product is zero or the root is below
1000; and the two concrete values from the spec hold.  The `u128`
product of two `u64` amounts never overflows and the root always fits
back into `u64`, so the `as u64` cast is lossless here. -/
theorem initialShareSupply_geometric_mean :
    (∀ x y : Nat, x < U64_MOD → y < U64_MOD →
      initialShareSupply x y =
        if x * y = 0 then .error (.Custom .InvalidMintSupply)
        else if Nat.sqrt (x * y) < 1000 then .error (.Custom .InvalidMintSupply)
        else .ok (Nat.sqrt (x * y))) ∧
    initialShareSupply 1000000 4000000 = .ok 2000000 ∧
    initialShareSupply 10 10 = .error (.Custom .InvalidMintSupply) := by
  have main : ∀ x y : Nat, x < U64_MOD → y < U64_MOD →
      initialShareSupply x y =
        if x * y = 0 then .error (.Custom .InvalidMintSupply)
        else if Nat.sqrt (x * y) < 1000 then .error (.Custom .InvalidMintSupply)
        else .ok (Nat.sqrt (x * y)) := by
    intro x y hx hy
    have hprod : x * y < U128_MOD := by
      rw [← u64_mul_u64]
      exact Nat.mul_lt_mul'' hx hy
    have hsq : Nat.sqrt (x * y) < U64_MOD := by
      rw [Nat.sqrt_lt, u64_mul_u64]
      exact hprod
    simp only [initialShareSupply, checkedMul128, if_pos hprod,
      Nat.mod_eq_of_lt hsq]
  refine ⟨main, ?_, ?_⟩
  · rw [main 1000000 4000000 (by norm_num [U64_MOD]) (by norm_num [U64_MOD])]
    have h : (1000000 * 4000000 : Nat) = 2000000 * 2000000 := by norm_num
    rw [h, Nat.sqrt_eq]
    norm_num
  · rw [main 10 10 (by norm_num [U64_MOD]) (by norm_num [U64_MOD])]
    have h : (10 * 10 : Nat) = 10 * 10 := rfl
    rw [show (10 * 10 : Nat) = 10 * 10 from rfl, Nat.sqrt_eq]
    norm_num

/-- Witness for C6: the general statement applied at `(3, 4)`, an
amount pair whose product's root (3) is below the 1000 floor. -/
theorem initialShareSupply_geometric_mean_witness :
    initialShareSupply 3 4 = .error (.Custom .InvalidMintSupply) := by
  rw [initialShareSupply_geometric_mean.1 3 4 (by norm_num [U64_MOD])
    (by norm_num [U64_MOD])]
  have h : (3 * 4 : Nat) = 3 * 3 + 3 := by norm_num
  rw [h, Nat.sqrt_add_eq 3 (by norm_num)]
  norm_num

/-- Counterexample to claim C4: the branch condition consults only the
two reserves, never the live share supply
(`src/instructions/deposit.rs` line 210).  In a context with both
reserves zero but a live LP supply of 7, depositing `(2000, 2000)`
succeeds through the geometric-mean path (minting
`sqrt(2000 * 2000) = 2000` shares), whereas the path the claim
prescribes for a non-zero share supply, `proportionalMintAmount`,
rejects this state with `InvalidMintSupply`. -/
theorem deposit_branch_ignores_lp_supply_counterexample :
    depositProcess fpaC ctxB ⟨2000, 2000, 0⟩ =
      .ok [ .transfer 10 7 2000 1, .transfer 11 8 2000 1,
            .mintTo 6 6 2000 5 ] ∧
    ctxB.vaultLpData.amount = 7 ∧
    proportionalMintAmount 0 0 7 2000 2000 =
      .error (.Custom .InvalidMintSupply) := by
  have hs : Nat.sqrt 4000000 = 2000 := by
    rw [show (4000000 : Nat) = 2000 * 2000 from by norm_num, Nat.sqrt_eq]
  have hm : checkedMul128 2000 2000 = some 4000000 := by
    unfold checkedMul128
    norm_num [U128_MOD]
  have hinit : initialShareSupply 2000 2000 = .ok 2000 := by
    unfold initialShareSupply
    rw [hm]
    simp only [hs]
    norm_num [U64_MOD]
  have hlp : lpMintTokensSupply 0 0 7 2000 2000 = .ok 2000 := by
    unfold lpMintTokensSupply
    norm_num [hinit]
  refine ⟨?_, rfl, by decide⟩
  exact depositProcess_ok_eq fpaC ctxB ⟨2000, 2000, 0⟩ 2000
    rfl rfl rfl rfl rfl rfl rfl rfl hlp (by decide) (by decide)

/-- Claim C4 as amended: in the Deposit handler the first-deposit
(geometric-mean) path is taken if and only if both live reserves are
zero; the live share supply is not consulted for the branch choice.  In
every other case the proportional-mint path is taken.  Stated on the
handler: whenever `Deposit::process` succeeds, the minted amount in the
third requested effect comes from `initialShareSupply` exactly when
both reserves are zero, and from `proportionalMintAmount` otherwise. -/
theorem deposit_branch_on_reserves_amended (fpa : Seeds → Nat)
    (ctx : DepositCtx) (ins : DepositInstructions) (effs : List Effect)
    (h : depositProcess fpa ctx ins = .ok effs) :
    ∃ lp,
      effs = [ .transfer ctx.userXAta ctx.vaultX ins.mintX ctx.user,
               .transfer ctx.userYAta ctx.vaultY ins.mintY ctx.user,
               .mintTo ctx.lpMint ctx.lpMint lp ctx.config ] ∧
      ((ctx.vaultXData.amount = 0 ∧ ctx.vaultYData.amount = 0) →
        initialShareSupply ins.mintX ins.mintY = .ok lp) ∧
      (¬(ctx.vaultXData.amount = 0 ∧ ctx.vaultYData.amount = 0) →
        proportionalMintAmount ctx.vaultXData.amount ctx.vaultYData.amount
          ctx.vaultLpData.amount ins.mintX ins.mintY = .ok lp) := by
  unfold depositProcess at h
  split_ifs at h
  cases hbr : lpMintTokensSupply ctx.vaultXData.amount ctx.vaultYData.amount
      ctx.vaultLpData.amount ins.mintX ins.mintY with
  | error e =>
    rw [hbr] at h
    exact absurd h (by simp)
  | ok lp =>
    rw [hbr] at h
    dsimp only at h
    split_ifs at h
    refine ⟨lp, ?_, ?_, ?_⟩
    · simpa using h.symm
    · intro hz
      unfold lpMintTokensSupply at hbr
      rwa [if_pos hz] at hbr
    · intro hz
      unfold lpMintTokensSupply at hbr
      rwa [if_neg hz] at hbr

/-- Witness for the amended C4: applied at a non-empty pool — reserves
`(1000, 2000)`, live supply `500`, deposit `(100, 200)` — where the
proportional path mints 50 shares. -/
theorem deposit_branch_on_reserves_witness :
    ∃ lp,
      [ Effect.transfer 10 7 100 1, Effect.transfer 11 8 200 1,
        Effect.mintTo 6 6 50 5 ] =
        [ Effect.transfer ctxA.userXAta ctxA.vaultX 100 ctxA.user,
          Effect.transfer ctxA.userYAta ctxA.vaultY 200 ctxA.user,
          Effect.mintTo ctxA.lpMint ctxA.lpMint lp ctxA.config ] ∧
      ((ctxA.vaultXData.amount = 0 ∧ ctxA.vaultYData.amount = 0) →
        initialShareSupply 100 200 = .ok lp) ∧
      (¬(ctxA.vaultXData.amount = 0 ∧ ctxA.vaultYData.amount = 0) →
        proportionalMintAmount ctxA.vaultXData.amount ctxA.vaultYData.amount
          ctxA.vaultLpData.amount 100 200 = .ok lp) :=
  deposit_branch_on_reserves_amended fpaC ctxA ⟨100, 200, 0⟩
    [ .transfer 10 7 100 1, .transfer 11 8 200 1, .mintTo 6 6 50 5 ]
    (by decide)

/-- Claim C8: with all account validation passing and the share
computation returning `lp`, the handler rejects `lp = 0` with
`InvalidAmount` and rejects `0 < lp` below the caller's stated minimum
with the slippage error; an error return means no transfer or mint
effect is requested (the effect list exists only in the `ok` result),
so reserves are unaltered. -/
theorem deposit_zero_and_slippage_rejection (fpa : Seeds → Nat)
    (ctx : DepositCtx) (ins : DepositInstructions) (lp : Nat)
    (h1 : ctx.configDataLen = Config.LEN)
    (h2 : ctx.configOwner = crateID)
    (h3 : fpa (.configSeeds ctx.configBump) = ctx.config)
    (h4 : fpa (.lpMintSeeds ctx.config) = ctx.lpMint)
    (h5 : ctx.vaultXData.owner = ctx.config)
    (h6 : ctx.vaultYData.owner = ctx.config)
    (h7 : ctx.vaultXData.mint = ctx.mintX)
    (h8 : ctx.vaultYData.mint = ctx.mintY)
    (hlp : lpMintTokensSupply ctx.vaultXData.amount ctx.vaultYData.amount
      ctx.vaultLpData.amount ins.mintX ins.mintY = .ok lp) :
    (lp = 0 → depositProcess fpa ctx ins = .error (.Custom .InvalidAmount)) ∧
    (lp ≠ 0 → lp < ins.minLpAmount →
      depositProcess fpa ctx ins = .error (.Custom .SlipageExceeded)) := by
  constructor
  · intro hz
    unfold depositProcess
    simp [h1, h2, h3, h4, h5, h6, h7, h8, hlp, hz]
  · intro hnz hlt
    unfold depositProcess
    simp [h1, h2, h3, h4, h5, h6, h7, h8, hlp, hnz, hlt]

/-- Witness for C8: the spec's own example — a deposit that would mint
only 50 shares against a stated minimum of 60 fails with the slippage
error (and hence requests no effects). -/
theorem deposit_zero_and_slippage_rejection_witness :
    depositProcess fpaC ctxA ⟨100, 200, 60⟩ =
      .error (.Custom .SlipageExceeded) := by
  have hlp : lpMintTokensSupply 1000 2000 500 100 200 = .ok 50 := by decide
  exact (deposit_zero_and_slippage_rejection fpaC ctxA ⟨100, 200, 60⟩ 50
    rfl rfl rfl rfl rfl rfl rfl rfl hlp).2 (by decide) (by decide)

/-- Helper: full characterization of `xy_deposit_amounts_from_l` on
`u64`/`u32`-ranged inputs.  The first two `u128` steps can never
overflow for such inputs; the function fails (always with `Overflow`)
exactly when `l = 0`, `p = 0`, or one of the two 128-bit products
`x * ratio`, `y * ratio` overflows; otherwise it returns the wide
results reduced `mod 2^64`. -/
theorem xyDeposit_char (x y l a p : Nat) (hl : l < U64_MOD)
    (ha : a < U64_MOD) (hp : p < 2 ^ 32) :
    xyDepositAmountsFromL x y l a p =
      if l = 0 then .error .Overflow
      else if p = 0 then .error .Overflow
      else if U128_MOD ≤ x * ((l + a) * p / l) then .error .Overflow
      else if U128_MOD ≤ y * ((l + a) * p / l) then .error .Overflow
      else .ok ⟨(x * ((l + a) * p / l) / p - x) % U64_MOD,
                (y * ((l + a) * p / l) / p - y) % U64_MOD⟩ := by
  have hl' : l < 18446744073709551616 := by
    have h := hl
    norm_num [U64_MOD] at h
    exact h
  have ha' : a < 18446744073709551616 := by
    have h := ha
    norm_num [U64_MOD] at h
    exact h
  have hp' : p < 4294967296 := by
    have h := hp
    norm_num at h
    exact h
  have hsum : l + a < U128_MOD := by
    norm_num [U128_MOD]
    omega
  have h1 : l + a < 36893488147419103232 := by omega
  have hmulp : (l + a) * p < U128_MOD :=
    calc (l + a) * p < 36893488147419103232 * 4294967296 :=
          Nat.mul_lt_mul'' h1 hp'
    _ ≤ U128_MOD := by norm_num [U128_MOD]
  have hadd : checkedAdd128 l a = some (l + a) := by
    unfold checkedAdd128
    rw [if_pos hsum]
  have hmul2 : checkedMul128 (l + a) p = some ((l + a) * p) := by
    unfold checkedMul128
    rw [if_pos hmulp]
  by_cases hl0 : l = 0
  · have hdiv : checkedDiv128 ((l + a) * p) l = none := by
      unfold checkedDiv128
      rw [if_pos hl0]
    unfold xyDepositAmountsFromL
    rw [hadd]
    dsimp only
    rw [hmul2]
    dsimp only
    rw [hdiv]
    dsimp only
    rw [if_pos hl0]
  · have hdiv : checkedDiv128 ((l + a) * p) l = some ((l + a) * p / l) := by
      unfold checkedDiv128
      rw [if_neg hl0]
    by_cases hp0 : p = 0
    · have hr0 : (l + a) * p / l = 0 := by
        rw [hp0, Nat.mul_zero, Nat.zero_div]
      have hxmul : checkedMul128 x ((l + a) * p / l) = some 0 := by
        unfold checkedMul128
        rw [hr0, Nat.mul_zero]
        rw [if_pos (by norm_num [U128_MOD])]
      have hxdiv : checkedDiv128 0 p = none := by
        unfold checkedDiv128
        rw [if_pos hp0]
      unfold xyDepositAmountsFromL
      rw [hadd]
      dsimp only
      rw [hmul2]
      dsimp only
      rw [hdiv]
      dsimp only
      rw [hxmul]
      dsimp only
      rw [hxdiv]
      dsimp only
      rw [if_neg hl0, if_pos hp0]
    · have hlpos : 0 < l := Nat.pos_of_ne_zero hl0
      have hppos : 0 < p := Nat.pos_of_ne_zero hp0
      have hpr : p ≤ (l + a) * p / l := by
        rw [Nat.le_div_iff_mul_le hlpos]
        calc p * l = l * p := Nat.mul_comm p l
        _ ≤ (l + a) * p := Nat.mul_le_mul_right p (Nat.le_add_right l a)
      by_cases hx128 : U128_MOD ≤ x * ((l + a) * p / l)
      · have hxmul : checkedMul128 x ((l + a) * p / l) = none := by
          unfold checkedMul128
          rw [if_neg (not_lt.mpr hx128)]
        unfold xyDepositAmountsFromL
        rw [hadd]
        dsimp only
        rw [hmul2]
        dsimp only
        rw [hdiv]
        dsimp only
        rw [hxmul]
        dsimp only
        rw [if_neg hl0, if_neg hp0, if_pos hx128]
      · have hxmul : checkedMul128 x ((l + a) * p / l) =
            some (x * ((l + a) * p / l)) := by
          unfold checkedMul128
          rw [if_pos (not_le.mp hx128)]
        have hxdiv : checkedDiv128 (x * ((l + a) * p / l)) p =
            some (x * ((l + a) * p / l) / p) := by
          unfold checkedDiv128
          rw [if_neg hp0]
        have hxle : x ≤ x * ((l + a) * p / l) / p :=
          (Nat.le_div_iff_mul_le hppos).mpr (Nat.mul_le_mul_left x hpr)
        have hxsub : checkedSub128 (x * ((l + a) * p / l) / p) x =
            some (x * ((l + a) * p / l) / p - x) := by
          unfold checkedSub128
          rw [if_pos hxle]
        by_cases hy128 : U128_MOD ≤ y * ((l + a) * p / l)
        · have hymul : checkedMul128 y ((l + a) * p / l) = none := by
            unfold checkedMul128
            rw [if_neg (not_lt.mpr hy128)]
          unfold xyDepositAmountsFromL
          rw [hadd]
          dsimp only
          rw [hmul2]
          dsimp only
          rw [hdiv]
          dsimp only
          rw [hxmul]
          dsimp only
          rw [hxdiv]
          dsimp only
          rw [hxsub]
          dsimp only
          rw [hymul]
          dsimp only
          rw [if_neg hl0, if_neg hp0, if_neg hx128, if_pos hy128]
        · have hymul : checkedMul128 y ((l + a) * p / l) =
              some (y * ((l + a) * p / l)) := by
            unfold checkedMul128
            rw [if_pos (not_le.mp hy128)]
          have hydiv : checkedDiv128 (y * ((l + a) * p / l)) p =
              some (y * ((l + a) * p / l) / p) := by
            unfold checkedDiv128
            rw [if_neg hp0]
          have hyle : y ≤ y * ((l + a) * p / l) / p :=
            (Nat.le_div_iff_mul_le hppos).mpr (Nat.mul_le_mul_left y hpr)
          have hysub : checkedSub128 (y * ((l + a) * p / l) / p) y =
              some (y * ((l + a) * p / l) / p - y) := by
            unfold checkedSub128
            rw [if_pos hyle]
          unfold xyDepositAmountsFromL
          rw [hadd]
          dsimp only
          rw [hmul2]
          dsimp only
          rw [hdiv]
          dsimp only
          rw [hxmul]
          dsimp only
          rw [hxdiv]
          dsimp only
          rw [hxsub]
          dsimp only
          rw [hymul]
          dsimp only
          rw [hydiv]
          dsimp only
          rw [hysub]
          dsimp only
          rw [if_neg hl0, if_neg hp0, if_neg hx128, if_neg hy128]

/-- Claim C5 as amended: `xy_deposit_amounts_from_l` computes
`ratio = (l + a) * precision / l` — the multiplier is the raw
`precision` argument, not `10^precision` — in a 128-bit intermediate,
returns `deposit_x = x * ratio / precision - x` (symmetric for `y`)
reduced `mod 2^64` by the final `as u64` cast, and fails with
`Overflow` exactly when `l = 0` (division by zero), `precision = 0`
(division by zero), or one of the products `x * ratio`, `y * ratio`
overflows 128 bits; the initial addition and multiplication cannot
overflow for `u64`/`u32` inputs and the subtractions cannot
underflow. -/
theorem xyDeposit_characterization_amended (x y l a p : Nat)
    (hl : l < U64_MOD) (ha : a < U64_MOD) (hp : p < 2 ^ 32) :
    xyDepositAmountsFromL x y l a p =
      if l = 0 then .error .Overflow
      else if p = 0 then .error .Overflow
      else if U128_MOD ≤ x * ((l + a) * p / l) then .error .Overflow
      else if U128_MOD ≤ y * ((l + a) * p / l) then .error .Overflow
      else .ok ⟨(x * ((l + a) * p / l) / p - x) % U64_MOD,
                (y * ((l + a) * p / l) / p - y) % U64_MOD⟩ :=
  xyDeposit_char x y l a p hl ha hp

/-- Witness for the amended C5: at `(10, 10, 3, 1, 1)` the
characterization evaluates to the concrete result `(0, 0)`. -/
theorem xyDeposit_characterization_witness :
    xyDepositAmountsFromL 10 10 3 1 1 = .ok ⟨0, 0⟩ := by
  have h := xyDeposit_characterization_amended 10 10 3 1 1
    (by norm_num [U64_MOD]) (by norm_num [U64_MOD]) (by norm_num)
  rw [h]
  norm_num [U128_MOD, U64_MOD]

/-- Claim C3 as amended: on `u64`/`u32`-scale inputs the 128-bit
intermediate arithmetic of `xy_deposit_amounts_from_l` never silently
wraps — every failure is the explicit `Overflow` error — and the
returned pair is the mathematically correct wide-intermediate pair
reduced `mod 2^64` by the final `as u64` cast; whenever both wide
values fit in 64 bits the function returns them exactly. -/
theorem xyDeposit_no_silent_wrap_amended (x y l a p : Nat)
    (hl : l < U64_MOD) (ha : a < U64_MOD) (hp : p < 2 ^ 32) :
    (xyDepositAmountsFromL x y l a p = .error .Overflow ∨
     xyDepositAmountsFromL x y l a p =
       .ok ⟨(x * ((l + a) * p / l) / p - x) % U64_MOD,
            (y * ((l + a) * p / l) / p - y) % U64_MOD⟩) ∧
    (x * ((l + a) * p / l) / p - x < U64_MOD →
     y * ((l + a) * p / l) / p - y < U64_MOD →
     xyDepositAmountsFromL x y l a p = .error .Overflow ∨
     xyDepositAmountsFromL x y l a p =
       .ok ⟨x * ((l + a) * p / l) / p - x,
            y * ((l + a) * p / l) / p - y⟩) := by
  have h := xyDeposit_char x y l a p hl ha hp
  constructor
  · rw [h]
    split_ifs <;> simp
  · intro hwx hwy
    rw [h]
    split_ifs <;> simp [Nat.mod_eq_of_lt hwx, Nat.mod_eq_of_lt hwy]

/-- Witness for the amended C3: applied at `(100, 200, 10, 10, 1)`,
where the wide values fit in 64 bits. -/
theorem xyDeposit_no_silent_wrap_witness :
    xyDepositAmountsFromL 100 200 10 10 1 = .error .Overflow ∨
    xyDepositAmountsFromL 100 200 10 10 1 =
      .ok ⟨(100 * ((10 + 10) * 1 / 10) / 1 - 100) % U64_MOD,
           (200 * ((10 + 10) * 1 / 10) / 1 - 200) % U64_MOD⟩ :=
  (xyDeposit_no_silent_wrap_amended 100 200 10 10 1
    (by norm_num [U64_MOD]) (by norm_num [U64_MOD]) (by norm_num)).1

/-- Claim C7 as amended: for a non-empty pool with `u64`-ranged state,
the proportional path mints
`min((dx * L / rx) mod 2^64, (dy * L / ry) mod 2^64)` — each per-asset
floor quotient is narrowed `as u64` before the minimum is taken.  For
quotients below `2^64` this coincides with the claimed
`min(dx * L / rx, dy * L / ry)`; in particular the spec's concrete
examples hold: reserves `(1000, 2000)` with supply `500` mint 50 shares
for deposits `(100, 200)` and 25 shares for `(100, 100)`. -/
theorem proportionalMint_min_quotients_amended :
    (∀ rx ry l dx dy : Nat, rx < U64_MOD → ry < U64_MOD → l < U64_MOD →
      dx < U64_MOD → dy < U64_MOD → rx ≠ 0 → ry ≠ 0 → l ≠ 0 →
      proportionalMintAmount rx ry l dx dy =
        .ok (min (dx * l / rx % U64_MOD) (dy * l / ry % U64_MOD))) ∧
    proportionalMintAmount 1000 2000 500 100 200 = .ok 50 ∧
    proportionalMintAmount 1000 2000 500 100 100 = .ok 25 := by
  refine ⟨?_, by decide, by decide⟩
  intro rx ry l dx dy hrx hry hl hdx hdy hrx0 hry0 hl0
  have hguard : ¬(rx = 0 ∨ ry = 0 ∨ l = 0) := by
    simp [hrx0, hry0, hl0]
  have hmx : checkedMul128 dx l = some (dx * l) := by
    unfold checkedMul128
    rw [if_pos (by rw [← u64_mul_u64]; exact Nat.mul_lt_mul'' hdx hl)]
  have hdxq : checkedDiv128 (dx * l) rx = some (dx * l / rx) := by
    unfold checkedDiv128
    rw [if_neg hrx0]
  have hmy : checkedMul128 dy l = some (dy * l) := by
    unfold checkedMul128
    rw [if_pos (by rw [← u64_mul_u64]; exact Nat.mul_lt_mul'' hdy hl)]
  have hdyq : checkedDiv128 (dy * l) ry = some (dy * l / ry) := by
    unfold checkedDiv128
    rw [if_neg hry0]
  unfold proportionalMintAmount
  rw [if_neg hguard]
  rw [hmx]
  dsimp only
  rw [hdxq]
  dsimp only
  rw [hmy]
  dsimp only
  rw [hdyq]

/-- Witness for the amended C7: applied at the spec's proportional
example, reserves `(1000, 2000)`, supply `500`, deposit `(100, 200)`. -/
theorem proportionalMint_min_quotients_witness :
    proportionalMintAmount 1000 2000 500 100 200 =
      .ok (min (100 * 500 / 1000 % U64_MOD) (200 * 500 / 2000 % U64_MOD)) :=
  proportionalMint_min_quotients_amended.1 1000 2000 500 100 200
    (by norm_num [U64_MOD]) (by norm_num [U64_MOD]) (by norm_num [U64_MOD])
    (by norm_num [U64_MOD]) (by norm_num [U64_MOD])
    (by norm_num) (by norm_num) (by norm_num)

/-- Helper: inverting a successful `Except` bind. -/
theorem except_bind_ok {ε α β : Type} {a : Except ε α} {f : α → Except ε β}
    {v : β} (h : a >>= f = .ok v) : ∃ w, a = .ok w ∧ f w = .ok v := by
  cases a with
  | error e => simp [Bind.bind, Except.bind] at h
  | ok w =>
    refine ⟨w, rfl, ?_⟩
    simpa [Bind.bind, Except.bind] using h

/-- Helper: a passing associated-token-account check forces the
account's key to equal the derived address for its (owner, mint)
pair. -/
theorem ataCheck_ok_key {d : Nat → Nat → Nat} {acc auth mint : AccountInfo}
    {u : Unit} (h : associatedTokenAccountCheck d acc auth mint = .ok u) :
    d auth.key mint.key = acc.key := by
  unfold associatedTokenAccountCheck at h
  obtain ⟨w, hw, hf⟩ := except_bind_ok h
  by_cases hd : d auth.key mint.key = acc.key
  · exact hd
  · rw [if_pos hd] at hf
    cases hf

/-- Claim C10: `DepositAccounts::try_from` checks the single `vault_lp`
account against the derived address for `(vault_x, lp_mint)` and for
`(vault_y, lp_mint)` (`src/instructions/deposit.rs` lines 61-62), so
whenever those two derivations differ the validation can never
succeed — and in particular, for an injective derivation, whenever
`vault_x ≠ vault_y`.  A failed `try_from` aborts the Deposit before any
arithmetic runs. -/
theorem depositAccounts_vault_lp_contradictory_checks :
    (∀ (ataDerive : Nat → Nat → Nat) (fpa : Seeds → Nat)
      (user mX mY lpM cfg vX vY uLp uX uY vLp tp sp atp : AccountInfo),
      ataDerive vX.key lpM.key ≠ ataDerive vY.key lpM.key →
      (depositAccountsTryFrom ataDerive fpa
        [user, mX, mY, lpM, cfg, vX, vY, uLp, uX, uY, vLp, tp, sp, atp]).isOk
          = false) ∧
    (∀ (ataDerive : Nat → Nat → Nat) (fpa : Seeds → Nat)
      (user mX mY lpM cfg vX vY uLp uX uY vLp tp sp atp : AccountInfo),
      (∀ o1 o2 m, ataDerive o1 m = ataDerive o2 m → o1 = o2) →
      vX.key ≠ vY.key →
      (depositAccountsTryFrom ataDerive fpa
        [user, mX, mY, lpM, cfg, vX, vY, uLp, uX, uY, vLp, tp, sp, atp]).isOk
          = false) := by
  have main : ∀ (ataDerive : Nat → Nat → Nat) (fpa : Seeds → Nat)
      (user mX mY lpM cfg vX vY uLp uX uY vLp tp sp atp : AccountInfo),
      ataDerive vX.key lpM.key ≠ ataDerive vY.key lpM.key →
      (depositAccountsTryFrom ataDerive fpa
        [user, mX, mY, lpM, cfg, vX, vY, uLp, uX, uY, vLp, tp, sp, atp]).isOk
          = false := by
    intro ataDerive fpa user mX mY lpM cfg vX vY uLp uX uY vLp tp sp atp hne
    cases hres : depositAccountsTryFrom ataDerive fpa
        [user, mX, mY, lpM, cfg, vX, vY, uLp, uX, uY, vLp, tp, sp, atp] with
    | error e => rfl
    | ok res =>
      exfalso
      unfold depositAccountsTryFrom at hres
      dsimp only at hres
      obtain ⟨_, _, hres⟩ := except_bind_ok hres
      obtain ⟨_, _, hres⟩ := except_bind_ok hres
      obtain ⟨_, _, hres⟩ := except_bind_ok hres
      obtain ⟨_, _, hres⟩ := except_bind_ok hres
      obtain ⟨_, _, hres⟩ := except_bind_ok hres
      obtain ⟨_, _, hres⟩ := except_bind_ok hres
      obtain ⟨_, hvx, hres⟩ := except_bind_ok hres
      obtain ⟨_, hvy, hres⟩ := except_bind_ok hres
      exact hne ((ataCheck_ok_key hvx).trans (ataCheck_ok_key hvy).symm)
  refine ⟨main, ?_⟩
  intro ataDerive fpa user mX mY lpM cfg vX vY uLp uX uY vLp tp sp atp hinj hvne
  exact main ataDerive fpa user mX mY lpM cfg vX vY uLp uX uY vLp tp sp atp
    (fun he => hvne (hinj vX.key vY.key lpM.key he))

/-- Witness for C10: the concrete account list `accountsC` with vault
keys 7 and 8 and the concrete derivation `ataDeriveC`, under which the
two derivations are 7006 and 8006. -/
theorem depositAccounts_vault_lp_contradictory_checks_witness :
    (depositAccountsTryFrom ataDeriveC fpaC accountsC).isOk = false :=
  depositAccounts_vault_lp_contradictory_checks.1 ataDeriveC fpaC
    ⟨1, true, 0, 0⟩ ⟨2, false, 0, MINT_LEN⟩ ⟨3, false, 0, MINT_LEN⟩
    ⟨6, false, 0, MINT_LEN⟩ ⟨5, false, 0, 0⟩
    ⟨7, false, tokenProgramID, TOKEN_ACCOUNT_LEN⟩
    ⟨8, false, tokenProgramID, TOKEN_ACCOUNT_LEN⟩
    ⟨1006, false, tokenProgramID, TOKEN_ACCOUNT_LEN⟩
    ⟨1002, false, tokenProgramID, TOKEN_ACCOUNT_LEN⟩
    ⟨1003, false, tokenProgramID, TOKEN_ACCOUNT_LEN⟩
    ⟨7006, false, tokenProgramID, TOKEN_ACCOUNT_LEN⟩
    ⟨101, false, 0, 0⟩ ⟨102, false, 0, 0⟩ ⟨103, false, 0, 0⟩
    (by decide)

end PinocchioAmm
